import Mathlib

/-!
Shallow embedding of the files-stash file lifecycle engine:
the `files.Service` (Upload / Download / Delete), the filesystem blob
store `fs.Storage` (Save / GetContent / Delete) and the SQLite metadata
repository `sqlite.Repository` (Create / FindByID / FindByTag / List /
Delete).  Timestamps and durations are modelled as `Int` nanoseconds
(Go `time.Time` / `time.Duration`); byte streams as `List Nat`; each
fallible store operation takes an explicit `Bool` flag injecting the
environment failures (disk error, database error) that the Go code
branches on.
-/

namespace FilesStash

/-- `files.File` (internal/files/files.go): the metadata record. -/
structure File where
  id : String
  name : String
  tag : String
  size : Int
  mimeType : String
  createdAt : Int
  expiresAt : Int
deriving DecidableEq

/-- Combined state of the two stores: blob store contents keyed by id,
and the metadata table in insertion order. -/
structure State where
  blobs : List (String × List Nat)
  recs : List File
deriving DecidableEq

/-- Look up a blob by id in the blob store. -/
def lookupBlob (blobs : List (String × List Nat)) (id : String) : Option (List Nat) :=
  (blobs.find? (fun b => b.1 == id)).map (fun b => b.2)

/-- 24 hours in nanoseconds: the hard-coded default TTL in
`fs.Storage.Save` (`time.Now().Add(24 * time.Hour)`). -/
def hours24 : Int := 24 * 60 * 60 * 1000000000

/-- `fs.Storage.Save` (internal/fs/storage.go): writes the content under
`id` (overwriting any existing blob, as `os.Create` truncates) and
returns a `files.File` whose `CreatedAt` / `ExpiresAt` are read from the
storage's own clock (`fsNow1`, `fsNow2`) with the hard-coded 24h TTL.
`envFail` injects the mkdir/create/copy failure paths, after which the
partial file is removed, so the store is unchanged. -/
def fsSave (blobs : List (String × List Nat)) (id name mimeType : String)
    (data : List Nat) (fsNow1 fsNow2 : Int) (envFail : Bool) :
    Except String (File × List (String × List Nat)) :=
  if envFail then .error "failed to write file content"
  else .ok ({ id := id, name := name, tag := "", size := (data.length : Int),
              mimeType := mimeType, createdAt := fsNow1,
              expiresAt := fsNow2 + hours24 },
            blobs.filter (fun b => b.1 != id) ++ [(id, data)])

/-- `fs.Storage.Delete`: `os.Remove`, tolerating an already-absent file
(`os.IsNotExist` maps to nil).  `envFail` injects any other removal
failure of an existing blob. -/
def fsDelete (blobs : List (String × List Nat)) (id : String) (envFail : Bool) :
    Except String (List (String × List Nat)) :=
  if (blobs.find? (fun b => b.1 == id)).isSome then
    if envFail then .error "failed to delete file"
    else .ok (blobs.filter (fun b => b.1 != id))
  else .ok blobs

/-- `fs.Storage.GetContent`: `os.Open`; a missing blob yields the
distinguished "file not found" error, `envFail` injects any other open
failure. -/
def fsGetContent (blobs : List (String × List Nat)) (id : String) (envFail : Bool) :
    Except String (List Nat) :=
  match blobs.find? (fun b => b.1 == id) with
  | none => .error "file not found"
  | some b => if envFail then .error "failed to open file" else .ok b.2

/-- `sqlite.Repository.Create`: INSERT; fails on a database error or on
a duplicate primary key `id`, both surfacing as the same wrapped
message. -/
def repoCreate (recs : List File) (f : File) (envFail : Bool) :
    Except String (List File) :=
  if envFail then .error "failed to create file record"
  else if recs.any (fun r => r.id == f.id) then .error "failed to create file record"
  else .ok (recs ++ [f])

/-- `sqlite.Repository.FindByID`: SELECT ... WHERE id = ?; `sql.ErrNoRows`
maps to "file not found". -/
def repoFindByID (recs : List File) (id : String) : Except String File :=
  match recs.find? (fun r => r.id == id) with
  | none => .error "file not found"
  | some r => .ok r

/-- Stable insertion by nonincreasing `createdAt`, modelling
`ORDER BY created_at DESC`. -/
def insertByCreatedAtDesc (f : File) : List File → List File
  | [] => [f]
  | g :: gs =>
    if g.createdAt ≤ f.createdAt then f :: g :: gs
    else g :: insertByCreatedAtDesc f gs

/-- Sort the metadata table by `createdAt` descending (ties resolved
deterministically by insertion order, as required of the store). -/
def sortByCreatedAtDesc : List File → List File
  | [] => []
  | f :: fs => insertByCreatedAtDesc f (sortByCreatedAtDesc fs)

/-- `sqlite.Repository.FindByTag`: SELECT ... WHERE tag = ?
ORDER BY created_at DESC LIMIT 1; `sql.ErrNoRows` maps to
"file not found".  No expiry condition appears in the query. -/
def repoFindByTag (recs : List File) (tag : String) : Except String File :=
  match sortByCreatedAtDesc (recs.filter (fun r => r.tag == tag)) with
  | [] => .error "file not found"
  | r :: _ => .ok r

/-- `sqlite.Repository.List`: SELECT ... ORDER BY created_at DESC, no
WHERE clause, so every row is returned. -/
def repoList (recs : List File) : List File :=
  sortByCreatedAtDesc recs

/-- `sqlite.Repository.Delete`: DELETE ... WHERE id = ?; a database
error is injected by `envFail`, and `rowsAffected == 0` (no record with
that id) is reported as the error "file not found". -/
def repoDelete (recs : List File) (id : String) (envFail : Bool) :
    Except String (List File) :=
  if envFail then .error "failed to delete file record"
  else if recs.any (fun r => r.id == id) then .ok (recs.filter (fun r => r.id != id))
  else .error "file not found"

/-- `files.Service` (the service in package files): holds the HMAC key
and the service-wide TTL.  `hmacSha256Hex key msg` abstracts the Go
pipeline `hex.EncodeToString(hmac.New(sha256.New, key).Sum(msg))`: a
deterministic keyed function; the claims depend only on its
determinism, never on the SHA-256 internals. -/
structure Service where
  hmacKey : String
  ttl : Int
  hmacSha256Hex : String → String → String

/-- `Service.createSignature`: the hex HMAC-SHA256 of the id under the
service key. -/
def Service.createSignature (s : Service) (id : String) : String :=
  s.hmacSha256Hex s.hmacKey id

/-- `Service.verifySignature`: `hmac.Equal` is a constant-time byte
comparison, semantically equality of the two strings. -/
def Service.verifySignature (s : Service) (id sig : String) : Bool :=
  sig == s.createSignature id

/-- `Service.generateSignedURL`: the signed retrieval reference. -/
def Service.generateSignedURL (s : Service) (id : String) : String :=
  "/v1/files/" ++ id ++ "?signature=" ++ s.createSignature id

/-- `Service.calculateSize`: `io.ReadAll` of the whole stream, returning
its length and the buffered bytes; `readFail` injects a reader error. -/
def calculateSize (content : List Nat) (readFail : Bool) :
    Except String (Int × List Nat) :=
  if readFail then .error "read error"
  else .ok ((content.length : Int), content)

/-- `files.UploadRequest` with the content stream already identified
with its byte sequence. -/
structure UploadRequest where
  name : String
  mimeType : String
  content : List Nat
deriving DecidableEq

/-- `files.UploadResult`. -/
structure UploadResult where
  id : String
  name : String
  size : Int
  mimeType : String
  createdAt : Int
  expiresAt : Int
  url : String
deriving DecidableEq

/-- Environment of one `Service.Upload` call: the service clock reading
`now`, the two clock readings inside `fs.Storage.Save`, and the failure
injections for the reader, the blob save, the metadata insert, and the
compensating blob delete. -/
structure UploadEnv where
  now : Int
  fsNow1 : Int
  fsNow2 : Int
  readFail : Bool
  saveFail : Bool
  createFail : Bool
  compDeleteFail : Bool
deriving DecidableEq

/-- `Service.Upload` (the service in package files): read the content,
build the record with `createdAt = now`, `expiresAt = now + ttl`, save
the blob, insert the metadata (on failure: compensating blob delete
whose error is discarded), then return the result built from the file
returned by the blob store together with the signed URL.  The generated
id is passed explicitly (`generateID` formats the current nanosecond
clock). -/
def Service.upload (s : Service) (st : State) (env : UploadEnv) (id : String)
    (req : UploadRequest) : Except String UploadResult × State :=
  match calculateSize req.content env.readFail with
  | .error e => (.error ("failed to calculate file size: " ++ e), st)
  | .ok (size, data) =>
    let file : File :=
      { id := id, name := req.name, tag := "", size := size,
        mimeType := req.mimeType, createdAt := env.now,
        expiresAt := env.now + s.ttl }
    match fsSave st.blobs id req.name req.mimeType data env.fsNow1 env.fsNow2
        env.saveFail with
    | .error e => (.error ("failed to save file: " ++ e), st)
    | .ok (savedFile, blobs1) =>
      match repoCreate st.recs file env.createFail with
      | .error e =>
        let blobs2 :=
          match fsDelete blobs1 id env.compDeleteFail with
          | .ok b => b
          | .error _ => blobs1
        (.error ("failed to save file metadata: " ++ e),
         { blobs := blobs2, recs := st.recs })
      | .ok recs1 =>
        (.ok { id := savedFile.id, name := savedFile.name,
               size := savedFile.size, mimeType := savedFile.mimeType,
               createdAt := savedFile.createdAt,
               expiresAt := savedFile.expiresAt,
               url := s.generateSignedURL id },
         { blobs := blobs1, recs := recs1 })

/-- Environment of one `Service.Download` call: the clock reading and
the failure injections for the two lazy-eviction deletes and the
content open. -/
structure DownloadEnv where
  now : Int
  cleanupBlobFail : Bool
  cleanupRecFail : Bool
  getFail : Bool
deriving DecidableEq

/-- `Service.Download`: verify the signature first; look up the record;
if `now` is strictly after `expiresAt`, delete blob and record
(both results discarded) and fail "file has expired"; otherwise open
the blob and return record and content. -/
def Service.download (s : Service) (st : State) (env : DownloadEnv)
    (id sig : String) : Except String (File × List Nat) × State :=
  if s.verifySignature id sig then
    match repoFindByID st.recs id with
    | .error e => (.error ("file not found: " ++ e), st)
    | .ok file =>
      if file.expiresAt < env.now then
        let blobs1 :=
          match fsDelete st.blobs id env.cleanupBlobFail with
          | .ok b => b
          | .error _ => st.blobs
        let recs1 :=
          match repoDelete st.recs id env.cleanupRecFail with
          | .ok r => r
          | .error _ => st.recs
        (.error "file has expired", { blobs := blobs1, recs := recs1 })
      else
        match fsGetContent st.blobs id env.getFail with
        | .error e => (.error ("failed to retrieve file content: " ++ e), st)
        | .ok data => (.ok (file, data), st)
  else (.error "invalid signature", st)

/-- `Service.Delete`: delete the blob first (already-absent tolerated by
the store), abort on a storage error, then delete the metadata record,
whose error — including "file not found" — is propagated. -/
def Service.delete (s : Service) (st : State) (blobEnvFail recEnvFail : Bool)
    (id : String) : Except String Unit × State :=
  match fsDelete st.blobs id blobEnvFail with
  | .error e => (.error ("failed to delete file from storage: " ++ e), st)
  | .ok blobs1 =>
    match repoDelete st.recs id recEnvFail with
    | .error e =>
      (.error ("failed to delete file metadata: " ++ e),
       { blobs := blobs1, recs := st.recs })
    | .ok recs1 => (.ok (), { blobs := blobs1, recs := recs1 })

/-! Helper lemmas about the association-list stores and the sort. -/

/-- After filtering out entries keyed by `id`, no entry keyed by `id`
can be found in the blob store. -/
theorem blob_find?_filter_ne (blobs : List (String × List Nat)) (id : String) :
    (blobs.filter (fun b => b.1 != id)).find? (fun b => b.1 == id) = none := by
  simp only [List.find?_eq_none, List.mem_filter]
  intro x hx
  simpa using hx.2

/-- After filtering out records keyed by `id`, no record keyed by `id`
remains in the metadata table. -/
theorem recs_any_filter_ne (recs : List File) (id : String) :
    (recs.filter (fun r => r.id != id)).any (fun r => r.id == id) = false := by
  simp only [List.any_eq_false, List.mem_filter]
  intro x hx
  simpa using hx.2

/-- Membership in the stable insertion. -/
theorem mem_insertByCreatedAtDesc {f a : File} {l : List File} :
    a ∈ insertByCreatedAtDesc f l ↔ a = f ∨ a ∈ l := by
  induction l with
  | nil => simp [insertByCreatedAtDesc]
  | cons g gs ih =>
    simp only [insertByCreatedAtDesc]
    split
    · simp [List.mem_cons]
    · simp only [List.mem_cons, ih]
      tauto

/-- The stable insertion is a permutation of consing. -/
theorem insertByCreatedAtDesc_perm (f : File) (l : List File) :
    (insertByCreatedAtDesc f l).Perm (f :: l) := by
  induction l with
  | nil => exact List.Perm.refl _
  | cons g gs ih =>
    simp only [insertByCreatedAtDesc]
    split
    · exact List.Perm.refl _
    · exact (ih.cons g).trans (List.Perm.swap f g gs)

/-- The sort is a permutation of the table. -/
theorem sortByCreatedAtDesc_perm (l : List File) :
    (sortByCreatedAtDesc l).Perm l := by
  induction l with
  | nil => exact List.Perm.refl _
  | cons f fs ih => exact (insertByCreatedAtDesc_perm f _).trans (ih.cons f)

/-- The stable insertion preserves the nonincreasing-`createdAt`
ordering. -/
theorem pairwise_insertByCreatedAtDesc {f : File} {l : List File}
    (h : l.Pairwise (fun a b => b.createdAt ≤ a.createdAt)) :
    (insertByCreatedAtDesc f l).Pairwise (fun a b => b.createdAt ≤ a.createdAt) := by
  induction l with
  | nil => simp [insertByCreatedAtDesc]
  | cons g gs ih =>
    obtain ⟨h1, h2⟩ := List.pairwise_cons.mp h
    simp only [insertByCreatedAtDesc]
    split
    · rename_i hle
      refine List.pairwise_cons.mpr ⟨?_, List.pairwise_cons.mpr ⟨h1, h2⟩⟩
      intro x hx
      rcases List.mem_cons.mp hx with rfl | hx'
      · exact hle
      · exact le_trans (h1 x hx') hle
    · rename_i hgt
      refine List.pairwise_cons.mpr ⟨?_, ih h2⟩
      intro x hx
      rcases mem_insertByCreatedAtDesc.mp hx with rfl | hx'
      · exact le_of_not_le hgt
      · exact h1 x hx'

/-- The sort output is ordered by nonincreasing `createdAt`. -/
theorem pairwise_sortByCreatedAtDesc (l : List File) :
    (sortByCreatedAtDesc l).Pairwise (fun a b => b.createdAt ≤ a.createdAt) := by
  induction l with
  | nil => simp [sortByCreatedAtDesc]
  | cons f fs ih => exact pairwise_insertByCreatedAtDesc ih

/-- A sample service instance (concrete key, TTL of 10ns, and a concrete
stand-in for the keyed hash) used by the concrete evaluations. -/
def svc : Service :=
  { hmacKey := "key", ttl := 10, hmacSha256Hex := fun k m => k ++ ":" ++ m }

/-- C4: for every identifier and every signature other than the keyed
HMAC of that identifier, `Service.Download` fails with the
"invalid signature" error and leaves the state untouched; the result is
the same for every store state, so a bad-signature request reveals
nothing about whether the identifier exists. -/
theorem download_bad_signature_rejected (s : Service) (st : State)
    (env : DownloadEnv) (id sig : String)
    (h : sig ≠ s.createSignature id) :
    s.download st env id sig = (.error "invalid signature", st) := by
  have hb : (sig == s.createSignature id) = false := by simpa using h
  simp [Service.download, Service.verifySignature, hb]

/-- Concrete instance of `download_bad_signature_rejected`: the literal
signature "deadbeef" is rejected on a state that does hold the file. -/
theorem download_bad_signature_rejected_witness :
    ("deadbeef" ≠ svc.createSignature "f1") ∧
    Service.download svc
        ⟨[("f1", [1])], [⟨"f1", "a", "", 1, "t", 0, 10⟩]⟩
        ⟨0, false, false, false⟩ "f1" "deadbeef"
      = (.error "invalid signature",
         ⟨[("f1", [1])], [⟨"f1", "a", "", 1, "t", 0, 10⟩]⟩) :=
  ⟨by decide, download_bad_signature_rejected svc
    ⟨[("f1", [1])], [⟨"f1", "a", "", 1, "t", 0, 10⟩]⟩
    ⟨0, false, false, false⟩ "f1" "deadbeef" (by decide)⟩

/-- C2 counterexample: with a stored file "f1", the first Delete
succeeds, and the second Delete on the resulting state returns a
"not found" error (the metadata repository reports zero rows affected
and the service propagates it), refuting idempotence. -/
theorem delete_twice_counterexample :
    (Service.delete svc ⟨[("f1", [1])], [⟨"f1", "a", "", 1, "t", 0, 10⟩]⟩
        false false "f1").1 = .ok () ∧
    (Service.delete svc
        (Service.delete svc ⟨[("f1", [1])], [⟨"f1", "a", "", 1, "t", 0, 10⟩]⟩
          false false "f1").2 false false "f1").1
      = .error "failed to delete file metadata: file not found" := by
  exact ⟨rfl, rfl⟩

/-- C2 amended: the first Delete of a stored file succeeds; a second
Delete of the same identifier is tolerated by the blob store
(already absent) but fails overall, because the metadata repository
reports "file not found" for the absent record and `Service.Delete`
propagates that error — end-to-end Delete is not idempotent. -/
theorem delete_twice_second_not_found (s : Service) (st : State) (id : String)
    (hrec : st.recs.any (fun r => r.id == id) = true) :
    (s.delete st false false id).1 = .ok () ∧
    (s.delete (s.delete st false false id).2 false false id).1
      = .error "failed to delete file metadata: file not found" := by
  have h1 : fsDelete st.blobs id false
      = .ok (if (st.blobs.find? (fun b => b.1 == id)).isSome then
               st.blobs.filter (fun b => b.1 != id) else st.blobs) := by
    unfold fsDelete
    split <;> simp_all
  have h2 : repoDelete st.recs id false
      = .ok (st.recs.filter (fun r => r.id != id)) := by
    simp [repoDelete, hrec]
  have hfirst : s.delete st false false id
      = (.ok (), { blobs := if (st.blobs.find? (fun b => b.1 == id)).isSome then
                     st.blobs.filter (fun b => b.1 != id) else st.blobs,
                   recs := st.recs.filter (fun r => r.id != id) }) := by
    simp [Service.delete, h1, h2]
  refine ⟨by simp [hfirst], ?_⟩
  rw [hfirst]
  have h3 : repoDelete (st.recs.filter (fun r => r.id != id)) id false
      = .error "file not found" := by
    simp [repoDelete, recs_any_filter_ne]
  have h4 : fsDelete (if (st.blobs.find? (fun b => b.1 == id)).isSome then
      st.blobs.filter (fun b => b.1 != id) else st.blobs) id false
      = .ok (if (st.blobs.find? (fun b => b.1 == id)).isSome then
               st.blobs.filter (fun b => b.1 != id) else st.blobs) := by
    by_cases hC : (st.blobs.find? (fun b => b.1 == id)).isSome = true
    · simp only [if_pos hC]
      unfold fsDelete
      rw [blob_find?_filter_ne]
      simp
    · simp only [if_neg hC]
      unfold fsDelete
      simp [hC]
  simp [Service.delete, h3, h4]

/-- Concrete instance of `delete_twice_second_not_found`. -/
theorem delete_twice_second_not_found_witness :
    (([⟨"f1", "a", "", 1, "t", 0, 10⟩] : List File).any
        (fun r => r.id == "f1") = true) ∧
    ((Service.delete svc ⟨[("f1", [1])], [⟨"f1", "a", "", 1, "t", 0, 10⟩]⟩
        false false "f1").1 = .ok () ∧
     (Service.delete svc
        (Service.delete svc ⟨[("f1", [1])], [⟨"f1", "a", "", 1, "t", 0, 10⟩]⟩
          false false "f1").2 false false "f1").1
       = .error "failed to delete file metadata: file not found") :=
  ⟨by decide, delete_twice_second_not_found svc
    ⟨[("f1", [1])], [⟨"f1", "a", "", 1, "t", 0, 10⟩]⟩ "f1" (by decide)⟩

/-- C7 counterexample: metadata for "f1" exists but the blob store is
empty; Download with the correct signature fails, yet the final state
still holds the orphaned record — no self-healing removal happens. -/
theorem download_orphan_counterexample :
    (Service.download svc ⟨[], [⟨"f1", "a", "", 1, "t", 0, 10⟩]⟩
        ⟨5, false, false, false⟩ "f1" (svc.createSignature "f1")).1
      = .error "failed to retrieve file content: file not found" ∧
    (Service.download svc ⟨[], [⟨"f1", "a", "", 1, "t", 0, 10⟩]⟩
        ⟨5, false, false, false⟩ "f1" (svc.createSignature "f1")).2.recs
      = [⟨"f1", "a", "", 1, "t", 0, 10⟩] := by
  exact ⟨rfl, rfl⟩

/-- C7 amended: when the metadata record exists, is unexpired, and the
blob is missing, Download with the correct signature fails with the
wrapped "file not found" content error, and the state — including the
orphaned metadata record — is left entirely unchanged (the code
performs no self-healing removal). -/
theorem download_orphan_no_selfheal (s : Service) (st : State)
    (env : DownloadEnv) (id : String) (file : File)
    (hfind : st.recs.find? (fun r => r.id == id) = some file)
    (hexp : ¬ file.expiresAt < env.now)
    (hblob : st.blobs.find? (fun b => b.1 == id) = none) :
    s.download st env id (s.createSignature id)
      = (.error "failed to retrieve file content: file not found", st) := by
  simp [Service.download, Service.verifySignature, repoFindByID, hfind, hexp,
    fsGetContent, hblob]

/-- Concrete instance of `download_orphan_no_selfheal`. -/
theorem download_orphan_no_selfheal_witness :
    (([⟨"f1", "a", "", 1, "t", 0, 10⟩] : List File).find?
        (fun r => r.id == "f1") = some ⟨"f1", "a", "", 1, "t", 0, 10⟩) ∧
    (¬ (⟨"f1", "a", "", 1, "t", 0, 10⟩ : File).expiresAt < (5 : Int)) ∧
    (([] : List (String × List Nat)).find? (fun b => b.1 == "f1") = none) ∧
    Service.download svc ⟨[], [⟨"f1", "a", "", 1, "t", 0, 10⟩]⟩
        ⟨5, false, false, false⟩ "f1" (svc.createSignature "f1")
      = (.error "failed to retrieve file content: file not found",
         ⟨[], [⟨"f1", "a", "", 1, "t", 0, 10⟩]⟩) :=
  ⟨by decide, by decide, by decide,
   download_orphan_no_selfheal svc ⟨[], [⟨"f1", "a", "", 1, "t", 0, 10⟩]⟩
     ⟨5, false, false, false⟩ "f1" ⟨"f1", "a", "", 1, "t", 0, 10⟩
     (by decide) (by decide) (by decide)⟩

/-- C5: downloading an expired file with the cryptographically correct
signature fails with the expiry error; with the cleanup succeeding,
both the blob and the metadata record are gone from the resulting
state; and with arbitrary cleanup failures at the same instant the
returned error is unchanged (best-effort eviction). -/
theorem download_expired_evicts (s : Service) (st : State)
    (env env' : DownloadEnv) (id : String) (file : File)
    (hfind : st.recs.find? (fun r => r.id == id) = some file)
    (hexp : file.expiresAt < env.now)
    (hcb : env.cleanupBlobFail = false) (hcr : env.cleanupRecFail = false)
    (hnow : env'.now = env.now) :
    (s.download st env id (s.createSignature id)).1 = .error "file has expired" ∧
    lookupBlob (s.download st env id (s.createSignature id)).2.blobs id = none ∧
    (s.download st env id (s.createSignature id)).2.recs.any
      (fun r => r.id == id) = false ∧
    (s.download st env' id (s.createSignature id)).1 = .error "file has expired" := by
  have hrecs_any : st.recs.any (fun r => r.id == id) = true := by
    have hp := List.find?_some hfind
    have hmem := List.mem_of_find?_eq_some hfind
    simp only [List.any_eq_true]
    exact ⟨file, hmem, hp⟩
  have h1 : fsDelete st.blobs id false
      = .ok (if (st.blobs.find? (fun b => b.1 == id)).isSome then
               st.blobs.filter (fun b => b.1 != id) else st.blobs) := by
    unfold fsDelete
    split <;> simp_all
  have h2 : repoDelete st.recs id false
      = .ok (st.recs.filter (fun r => r.id != id)) := by
    simp [repoDelete, hrecs_any]
  have hdown : s.download st env id (s.createSignature id)
      = (.error "file has expired",
         { blobs := if (st.blobs.find? (fun b => b.1 == id)).isSome then
             st.blobs.filter (fun b => b.1 != id) else st.blobs,
           recs := st.recs.filter (fun r => r.id != id) }) := by
    simp [Service.download, Service.verifySignature, repoFindByID, hfind, hexp,
      hcb, hcr, h1, h2]
  have hexp' : file.expiresAt < env'.now := by rw [hnow]; exact hexp
  refine ⟨by simp [hdown], ?_, ?_, ?_⟩
  · rw [hdown]
    by_cases hC : (st.blobs.find? (fun b => b.1 == id)).isSome = true
    · simp only [if_pos hC]
      simp [lookupBlob, blob_find?_filter_ne]
    · simp only [if_neg hC]
      have hnone : st.blobs.find? (fun b => b.1 == id) = none := by
        cases hfb : st.blobs.find? (fun b => b.1 == id) with
        | none => rfl
        | some b => rw [hfb] at hC; simp at hC
      simp [lookupBlob, hnone]
  · rw [hdown]
    exact recs_any_filter_ne st.recs id
  · simp [Service.download, Service.verifySignature, repoFindByID, hfind, hexp']

/-- Concrete instance of `download_expired_evicts`: a file expired at
time 10, accessed at time 11, with the second environment failing both
cleanups. -/
theorem download_expired_evicts_witness :
    (([⟨"f1", "a", "", 1, "t", 0, 10⟩] : List File).find?
        (fun r => r.id == "f1") = some ⟨"f1", "a", "", 1, "t", 0, 10⟩) ∧
    ((⟨"f1", "a", "", 1, "t", 0, 10⟩ : File).expiresAt < (11 : Int)) ∧
    ((Service.download svc ⟨[("f1", [7])], [⟨"f1", "a", "", 1, "t", 0, 10⟩]⟩
        ⟨11, false, false, false⟩ "f1" (svc.createSignature "f1")).1
      = .error "file has expired" ∧
     lookupBlob (Service.download svc
        ⟨[("f1", [7])], [⟨"f1", "a", "", 1, "t", 0, 10⟩]⟩
        ⟨11, false, false, false⟩ "f1" (svc.createSignature "f1")).2.blobs "f1"
      = none ∧
     (Service.download svc ⟨[("f1", [7])], [⟨"f1", "a", "", 1, "t", 0, 10⟩]⟩
        ⟨11, false, false, false⟩ "f1" (svc.createSignature "f1")).2.recs.any
        (fun r => r.id == "f1") = false ∧
     (Service.download svc ⟨[("f1", [7])], [⟨"f1", "a", "", 1, "t", 0, 10⟩]⟩
        ⟨11, true, true, false⟩ "f1" (svc.createSignature "f1")).1
      = .error "file has expired") :=
  ⟨by decide, by decide,
   download_expired_evicts svc ⟨[("f1", [7])], [⟨"f1", "a", "", 1, "t", 0, 10⟩]⟩
     ⟨11, false, false, false⟩ ⟨11, true, true, false⟩ "f1"
     ⟨"f1", "a", "", 1, "t", 0, 10⟩ (by decide) (by decide) rfl rfl rfl⟩

/-- A successful upload in full: the value returned to the caller is
built from the blob store's `savedFile` (its own clock, 24h default
TTL), while the record inserted into the metadata table carries the
service clock and `now + ttl`. -/
theorem upload_success_eq (s : Service) (st : State) (env : UploadEnv)
    (id : String) (req : UploadRequest)
    (hread : env.readFail = false) (hsave : env.saveFail = false)
    (hcreate : env.createFail = false)
    (hfresh : ∀ r ∈ st.recs, r.id ≠ id) :
    s.upload st env id req
      = (.ok { id := id, name := req.name, size := (req.content.length : Int),
               mimeType := req.mimeType, createdAt := env.fsNow1,
               expiresAt := env.fsNow2 + hours24,
               url := s.generateSignedURL id },
         { blobs := st.blobs.filter (fun b => b.1 != id) ++ [(id, req.content)],
           recs := st.recs ++ [{ id := id, name := req.name, tag := "",
                                 size := (req.content.length : Int),
                                 mimeType := req.mimeType, createdAt := env.now,
                                 expiresAt := env.now + s.ttl }] }) := by
  have hany : st.recs.any (fun r => r.id == id) = false := by
    simp only [List.any_eq_false]
    intro r hr
    simpa using hfresh r hr
  simp [Service.upload, calculateSize, fsSave, repoCreate, hread, hsave,
    hcreate, hany]

/-- C3: (a) if the blob save fails, Upload returns the save error and
the state — in particular the metadata table — is untouched; (b) if the
metadata insert fails after the blob was written, Upload returns the
metadata error, the compensating delete has removed the just-written
blob, and the metadata table is untouched, so no half-state remains;
(c) a failure of the compensating delete leaves the returned error
unchanged. -/
theorem upload_compensation (s : Service) (st : State)
    (envS envC envC' : UploadEnv) (id : String) (req : UploadRequest)
    (h1 : envS.readFail = false) (h2 : envS.saveFail = true)
    (h3 : envC.readFail = false) (h4 : envC.saveFail = false)
    (h5 : envC.createFail = true) (h6 : envC.compDeleteFail = false)
    (h7 : envC'.readFail = false) (h8 : envC'.saveFail = false)
    (h9 : envC'.createFail = true) :
    (s.upload st envS id req).1
      = .error "failed to save file: failed to write file content" ∧
    (s.upload st envS id req).2 = st ∧
    (s.upload st envC id req).1
      = .error "failed to save file metadata: failed to create file record" ∧
    lookupBlob (s.upload st envC id req).2.blobs id = none ∧
    (s.upload st envC id req).2.recs = st.recs ∧
    (s.upload st envC' id req).1 = (s.upload st envC id req).1 := by
  have hS : s.upload st envS id req
      = (.error "failed to save file: failed to write file content", st) := by
    simp [Service.upload, calculateSize, fsSave, h1, h2]
  have hcomp : fsDelete (st.blobs.filter (fun b => b.1 != id) ++ [(id, req.content)])
      id false
      = .ok ((st.blobs.filter (fun b => b.1 != id) ++ [(id, req.content)]).filter
          (fun b => b.1 != id)) := by
    unfold fsDelete
    rw [List.find?_append, blob_find?_filter_ne]
    simp
  have hC : s.upload st envC id req
      = (.error "failed to save file metadata: failed to create file record",
         { blobs := (st.blobs.filter (fun b => b.1 != id)
             ++ [(id, req.content)]).filter (fun b => b.1 != id),
           recs := st.recs }) := by
    simp [Service.upload, calculateSize, fsSave, repoCreate, h3, h4, h5, h6,
      hcomp]
  have hC' : (s.upload st envC' id req).1
      = .error "failed to save file metadata: failed to create file record" := by
    by_cases hcd : envC'.compDeleteFail = true
    · simp [Service.upload, calculateSize, fsSave, repoCreate, h7, h8, h9, hcd]
    · simp at hcd
      have hcomp' := hcomp
      simp [Service.upload, calculateSize, fsSave, repoCreate, h7, h8, h9, hcd,
        hcomp']
  refine ⟨by simp [hS], by simp [hS], by simp [hC], ?_, by simp [hC], ?_⟩
  · rw [hC]
    simp [lookupBlob, blob_find?_filter_ne]
  · rw [hC, hC']

/-- Concrete instance of `upload_compensation`. -/
theorem upload_compensation_witness :
    ((Service.upload svc ⟨[], []⟩ ⟨0, 0, 0, false, true, false, false⟩ "f1"
        ⟨"a", "t", [1, 2]⟩).1
      = .error "failed to save file: failed to write file content" ∧
     (Service.upload svc ⟨[], []⟩ ⟨0, 0, 0, false, true, false, false⟩ "f1"
        ⟨"a", "t", [1, 2]⟩).2 = ⟨[], []⟩ ∧
     (Service.upload svc ⟨[], []⟩ ⟨0, 0, 0, false, false, true, false⟩ "f1"
        ⟨"a", "t", [1, 2]⟩).1
      = .error "failed to save file metadata: failed to create file record" ∧
     lookupBlob (Service.upload svc ⟨[], []⟩ ⟨0, 0, 0, false, false, true, false⟩
        "f1" ⟨"a", "t", [1, 2]⟩).2.blobs "f1" = none ∧
     (Service.upload svc ⟨[], []⟩ ⟨0, 0, 0, false, false, true, false⟩ "f1"
        ⟨"a", "t", [1, 2]⟩).2.recs = ([] : List File) ∧
     (Service.upload svc ⟨[], []⟩ ⟨0, 0, 0, false, false, true, true⟩ "f1"
        ⟨"a", "t", [1, 2]⟩).1
      = (Service.upload svc ⟨[], []⟩ ⟨0, 0, 0, false, false, true, false⟩ "f1"
        ⟨"a", "t", [1, 2]⟩).1) :=
  upload_compensation svc ⟨[], []⟩ ⟨0, 0, 0, false, true, false, false⟩
    ⟨0, 0, 0, false, false, true, false⟩ ⟨0, 0, 0, false, false, true, true⟩
    "f1" ⟨"a", "t", [1, 2]⟩ rfl rfl rfl rfl rfl rfl rfl rfl rfl

/-- C6: concrete run showing the divergence. With service TTL 10ns and
clocks 100 / 200 / 300, the record stored in the metadata table
satisfies `expiresAt = createdAt + ttl` (110 = 100 + 10), but the
result returned to the caller carries the blob store's own clock
readings and its hard-coded 24-hour TTL, so its fields violate
`expiresAt = createdAt + ttl` — `Service.Upload` never overrides them
despite `fs.Storage.Save`'s comment saying the service will. -/
theorem upload_result_ttl_divergence :
    (Service.upload svc ⟨[], []⟩ ⟨100, 200, 300, false, false, false, false⟩
        "f1" ⟨"a.txt", "text/plain", [104, 105]⟩).1
      = .ok ⟨"f1", "a.txt", 2, "text/plain", 200, 300 + hours24,
             "/v1/files/f1?signature=key:f1"⟩ ∧
    (Service.upload svc ⟨[], []⟩ ⟨100, 200, 300, false, false, false, false⟩
        "f1" ⟨"a.txt", "text/plain", [104, 105]⟩).2.recs
      = [⟨"f1", "a.txt", "", 2, "text/plain", 100, 100 + 10⟩] ∧
    (⟨"f1", "a.txt", "", 2, "text/plain", 100, 100 + 10⟩ : File).expiresAt
      = (⟨"f1", "a.txt", "", 2, "text/plain", 100, 100 + 10⟩ : File).createdAt
        + svc.ttl ∧
    (300 + hours24 : Int) ≠ 200 + svc.ttl := by
  refine ⟨rfl, rfl, rfl, by decide⟩

/-- C10: on a successful upload the result's `size` and the `size` of
the record appended to the metadata table both equal the exact byte
count of the content; and when reading the stream fails, Upload fails
before either store is touched. -/
theorem upload_size_exact (s : Service) (st : State) (env envR : UploadEnv)
    (id : String) (req : UploadRequest)
    (hread : env.readFail = false) (hsave : env.saveFail = false)
    (hcreate : env.createFail = false)
    (hfresh : ∀ r ∈ st.recs, r.id ≠ id)
    (hR : envR.readFail = true) :
    (∃ result, (s.upload st env id req).1 = .ok result ∧
      result.size = (req.content.length : Int)) ∧
    (s.upload st env id req).2.recs
      = st.recs ++ [⟨id, req.name, "", (req.content.length : Int),
                     req.mimeType, env.now, env.now + s.ttl⟩] ∧
    (s.upload st envR id req).1
      = .error "failed to calculate file size: read error" ∧
    (s.upload st envR id req).2 = st := by
  have hup := upload_success_eq s st env id req hread hsave hcreate hfresh
  have hRup : s.upload st envR id req
      = (.error "failed to calculate file size: read error", st) := by
    simp [Service.upload, calculateSize, hR]
  refine ⟨⟨_, by rw [hup], rfl⟩, by rw [hup], by simp [hRup], by simp [hRup]⟩

/-- Concrete instance of `upload_size_exact` with zero-length content:
size 0 is recorded and returned. -/
theorem upload_size_exact_witness :
    ((∀ r ∈ (⟨[], []⟩ : State).recs, r.id ≠ "f1")) ∧
    ((∃ result, (Service.upload svc ⟨[], []⟩ ⟨0, 0, 0, false, false, false, false⟩
        "f1" ⟨"a", "t", []⟩).1 = .ok result ∧
      result.size = (([] : List Nat).length : Int)) ∧
     (Service.upload svc ⟨[], []⟩ ⟨0, 0, 0, false, false, false, false⟩
        "f1" ⟨"a", "t", []⟩).2.recs
      = ([] : List File) ++ [⟨"f1", "a", "", (([] : List Nat).length : Int),
                             "t", 0, 0 + svc.ttl⟩] ∧
     (Service.upload svc ⟨[], []⟩ ⟨0, 0, 0, true, false, false, false⟩
        "f1" ⟨"a", "t", []⟩).1
      = .error "failed to calculate file size: read error" ∧
     (Service.upload svc ⟨[], []⟩ ⟨0, 0, 0, true, false, false, false⟩
        "f1" ⟨"a", "t", []⟩).2 = (⟨[], []⟩ : State)) :=
  ⟨by decide,
   upload_size_exact svc ⟨[], []⟩ ⟨0, 0, 0, false, false, false, false⟩
     ⟨0, 0, 0, true, false, false, false⟩ "f1" ⟨"a", "t", []⟩
     rfl rfl rfl (by decide) rfl⟩

/-- C1: for any upload with no environment failures and a fresh
identifier, the result carries the signed URL embedding the signature
for that identifier; downloading with that signature at any time not
later than `now + ttl` (with the content open succeeding) returns the
byte-identical content together with the stored record, whose `size`
and `mimeType` match the values Upload returned. -/
theorem upload_download_roundtrip (s : Service) (st : State) (env : UploadEnv)
    (denv : DownloadEnv) (id : String) (req : UploadRequest)
    (hread : env.readFail = false) (hsave : env.saveFail = false)
    (hcreate : env.createFail = false) (hget : denv.getFail = false)
    (hfresh : ∀ r ∈ st.recs, r.id ≠ id)
    (hnotexp : denv.now ≤ env.now + s.ttl) :
    ∃ result file,
      (s.upload st env id req).1 = .ok result ∧
      result.url = "/v1/files/" ++ id ++ "?signature=" ++ s.createSignature id ∧
      s.download (s.upload st env id req).2 denv id (s.createSignature id)
        = (.ok (file, req.content), (s.upload st env id req).2) ∧
      file.size = result.size ∧
      file.mimeType = result.mimeType := by
  have hup := upload_success_eq s st env id req hread hsave hcreate hfresh
  refine ⟨⟨id, req.name, (req.content.length : Int), req.mimeType, env.fsNow1,
    env.fsNow2 + hours24, s.generateSignedURL id⟩,
    ⟨id, req.name, "", (req.content.length : Int), req.mimeType,
    env.now, env.now + s.ttl⟩, ?_, ?_, ?_, rfl, rfl⟩
  · rw [hup]
  · rfl
  · rw [hup]
    have hfindrec : (st.recs ++ [(⟨id, req.name, "", (req.content.length : Int),
        req.mimeType, env.now, env.now + s.ttl⟩ : File)]).find?
        (fun r => r.id == id)
        = some ⟨id, req.name, "", (req.content.length : Int), req.mimeType,
                env.now, env.now + s.ttl⟩ := by
      rw [List.find?_append]
      have hnone : st.recs.find? (fun r => r.id == id) = none := by
        simp only [List.find?_eq_none]
        intro r hr
        simpa using hfresh r hr
      rw [hnone]
      simp
    have hfindblob : (st.blobs.filter (fun b => b.1 != id)
        ++ [(id, req.content)]).find? (fun b => b.1 == id)
        = some (id, req.content) := by
      rw [List.find?_append, blob_find?_filter_ne]
      simp
    have hnexp : ¬ ((env.now + s.ttl) < denv.now) := not_lt.mpr hnotexp
    simp [Service.download, Service.verifySignature, repoFindByID, hfindrec,
      hnexp, fsGetContent, hfindblob, hget]

/-- Concrete instance of `upload_download_roundtrip`: upload "hi"
(2 bytes) at time 0 with TTL 10, download at time 5. -/
theorem upload_download_roundtrip_witness :
    ((∀ r ∈ (⟨[], []⟩ : State).recs, r.id ≠ "f1")) ∧
    ((5 : Int) ≤ 0 + svc.ttl) ∧
    (∃ result file,
      (Service.upload svc ⟨[], []⟩ ⟨0, 1, 2, false, false, false, false⟩
          "f1" ⟨"a.txt", "text/plain", [104, 105]⟩).1 = .ok result ∧
      result.url = "/v1/files/" ++ "f1" ++ "?signature="
        ++ svc.createSignature "f1" ∧
      Service.download svc
          (Service.upload svc ⟨[], []⟩ ⟨0, 1, 2, false, false, false, false⟩
            "f1" ⟨"a.txt", "text/plain", [104, 105]⟩).2
          ⟨5, false, false, false⟩ "f1" (svc.createSignature "f1")
        = (.ok (file, [104, 105]),
           (Service.upload svc ⟨[], []⟩ ⟨0, 1, 2, false, false, false, false⟩
             "f1" ⟨"a.txt", "text/plain", [104, 105]⟩).2) ∧
      file.size = result.size ∧
      file.mimeType = result.mimeType) :=
  ⟨by decide, by decide,
   upload_download_roundtrip svc ⟨[], []⟩ ⟨0, 1, 2, false, false, false, false⟩
     ⟨5, false, false, false⟩ "f1" ⟨"a.txt", "text/plain", [104, 105]⟩
     rfl rfl rfl rfl (by decide) (by decide)⟩

/-- C8 counterexample: the SQL query behind List has no expiry filter:
a record whose `expiresAt` (10) lies before the access time (100) is
still returned by `Repository.List`. -/
theorem list_includes_expired_counterexample :
    repoList [⟨"f1", "a", "", 1, "t", 0, 10⟩]
      = [⟨"f1", "a", "", 1, "t", 0, 10⟩] ∧
    (⟨"f1", "a", "", 1, "t", 0, 10⟩ : File).expiresAt < (100 : Int) :=
  ⟨rfl, by decide⟩

/-- C8 amended: `Repository.List` returns all FileRecords — expired
ones included — ordered by `createdAt` descending: the output is a
permutation of the table and pairwise nonincreasing in `createdAt`. -/
theorem list_all_sorted (recs : List File) :
    (repoList recs).Perm recs ∧
    (repoList recs).Pairwise (fun a b => b.createdAt ≤ a.createdAt) :=
  ⟨sortByCreatedAtDesc_perm recs, pairwise_sortByCreatedAtDesc recs⟩

/-- Concrete instance of `list_all_sorted` on a two-record table given
in ascending `createdAt` order. -/
theorem list_all_sorted_witness :
    (repoList [⟨"f1", "a", "", 1, "t", 0, 10⟩, ⟨"f2", "b", "", 1, "t", 5, 15⟩]).Perm
      [⟨"f1", "a", "", 1, "t", 0, 10⟩, ⟨"f2", "b", "", 1, "t", 5, 15⟩] ∧
    (repoList [⟨"f1", "a", "", 1, "t", 0, 10⟩,
               ⟨"f2", "b", "", 1, "t", 5, 15⟩]).Pairwise
      (fun a b => b.createdAt ≤ a.createdAt) :=
  list_all_sorted [⟨"f1", "a", "", 1, "t", 0, 10⟩, ⟨"f2", "b", "", 1, "t", 5, 15⟩]

/-- C9 counterexample: the SQL query behind FindByTag has no expiry
condition: with a single record tagged "v" whose `expiresAt` (10) lies
before time 100, `Repository.FindByTag` still returns it instead of
reporting not found. -/
theorem findByTag_expired_counterexample :
    repoFindByTag [⟨"f1", "a", "v", 1, "t", 0, 10⟩] "v"
      = .ok ⟨"f1", "a", "v", 1, "t", 0, 10⟩ ∧
    (⟨"f1", "a", "v", 1, "t", 0, 10⟩ : File).expiresAt < (100 : Int) :=
  ⟨rfl, by decide⟩

/-- C9 amended: `Repository.FindByTag` returns a record carrying the
tag with the maximum `createdAt` among all records carrying that tag —
expired or not — and fails with "file not found" exactly when no record
carries the tag. -/
theorem findByTag_latest (recs : List File) (tag : String) :
    ((∀ r ∈ recs, r.tag ≠ tag) ∧
      repoFindByTag recs tag = .error "file not found") ∨
    (∃ r, repoFindByTag recs tag = .ok r ∧ r ∈ recs ∧ r.tag = tag ∧
      ∀ r' ∈ recs, r'.tag = tag → r'.createdAt ≤ r.createdAt) := by
  have hperm := sortByCreatedAtDesc_perm (recs.filter (fun r => r.tag == tag))
  have hpw := pairwise_sortByCreatedAtDesc (recs.filter (fun r => r.tag == tag))
  unfold repoFindByTag
  cases hs : sortByCreatedAtDesc (recs.filter (fun r => r.tag == tag)) with
  | nil =>
    left
    rw [hs] at hperm
    have hfe : recs.filter (fun r => r.tag == tag) = [] := hperm.symm.eq_nil
    refine ⟨?_, rfl⟩
    intro r hr hteq
    have hrf : r ∈ recs.filter (fun r => r.tag == tag) := by
      rw [List.mem_filter]
      exact ⟨hr, by simp [hteq]⟩
    rw [hfe] at hrf
    simp at hrf
  | cons r rest =>
    right
    rw [hs] at hperm hpw
    have hrmem : r ∈ recs.filter (fun x => x.tag == tag) :=
      hperm.mem_iff.mp (List.mem_cons_self r rest)
    rw [List.mem_filter] at hrmem
    refine ⟨r, rfl, hrmem.1, by simpa using hrmem.2, ?_⟩
    intro r' hr' ht'
    have hr'f : r' ∈ recs.filter (fun x => x.tag == tag) := by
      rw [List.mem_filter]
      exact ⟨hr', by simp [ht']⟩
    have hr's : r' ∈ r :: rest := hperm.mem_iff.mpr hr'f
    rcases List.mem_cons.mp hr's with rfl | hmem
    · exact le_refl _
    · exact (List.pairwise_cons.mp hpw).1 r' hmem

/-- Concrete instance of `findByTag_latest`: two records tagged "v",
created at 0 and 5. -/
theorem findByTag_latest_witness :
    ((∀ r ∈ [⟨"f1", "a", "v", 1, "t", 0, 10⟩,
             (⟨"f2", "b", "v", 1, "t", 5, 15⟩ : File)], r.tag ≠ "v") ∧
      repoFindByTag [⟨"f1", "a", "v", 1, "t", 0, 10⟩,
                     ⟨"f2", "b", "v", 1, "t", 5, 15⟩] "v"
        = .error "file not found") ∨
    (∃ r, repoFindByTag [⟨"f1", "a", "v", 1, "t", 0, 10⟩,
                         ⟨"f2", "b", "v", 1, "t", 5, 15⟩] "v" = .ok r ∧
      r ∈ [⟨"f1", "a", "v", 1, "t", 0, 10⟩,
           (⟨"f2", "b", "v", 1, "t", 5, 15⟩ : File)] ∧ r.tag = "v" ∧
      ∀ r' ∈ [⟨"f1", "a", "v", 1, "t", 0, 10⟩,
              (⟨"f2", "b", "v", 1, "t", 5, 15⟩ : File)],
        r'.tag = "v" → r'.createdAt ≤ r.createdAt) :=
  findByTag_latest [⟨"f1", "a", "v", 1, "t", 0, 10⟩,
                    ⟨"f2", "b", "v", 1, "t", 5, 15⟩] "v"

end FilesStash
